import Mathlib

/-!
Verification development for the `magcoordpy` library.

The library converts between geodetic, geocentric and centered-dipole (CD)
geomagnetic coordinates and computes magnetic local time (MLT).

Modelling conventions used throughout this file:

* `igrf_coeffs.py` (the coefficient table and its interpolation) is embedded
  over `ℚ`: the Python code only uses field operations, comparisons and
  integer truncation on floats, all of which are exact here.  Python's
  `int()` is `pyInt` (truncation toward zero), Python list indexing
  (including negative indices, which wrap from the end) is `pyGet`.
* the coordinate pipeline of `coord_transforms.py` and the ephemeris of
  `helpers.py` are embedded over `ℝ`; `numpy`'s `arctan2 y x` is the
  argument of the complex number `x + y*I`, `np.round` is round-half-to-even
  (`np_round`), and the float remainder `%` with a positive modulus is the
  floor-remainder `pymod`.
* the collaborators that the spec declares external are parameters:
  `pymap3d.geodetic2ecef` / `pymap3d.ecef2geodetic` appear as function
  arguments `f` / `finv`, and the WGS84 semimajor axis `RE_M` is the
  standard value that `pymap3d`'s `Ellipsoid("wgs84")` exposes.
* Python exceptions are `Option.none`; scalar-vs-array (numpy shape)
  polymorphism is the type `NpInput`.
-/

set_option maxHeartbeats 1600000

namespace Magcoordpy

/-- Python list indexing `gh[i]` as used by `get_coeffs`: a nonnegative index
reads from the front, a negative index wraps from the end (this is how the
trailing `0.0` sentinel of the table gets read as `gh[-1]` for dates in
[1900, 1905)).  Out-of-range reads default to `0`. -/
def pyGet (gh : List ℚ) (i : ℤ) : ℚ :=
  if 0 ≤ i then gh.getD i.toNat 0 else gh.getD (i + gh.length).toNat 0

/-- Python `int()` on a float: truncation toward zero. -/
def pyInt (x : ℚ) : ℤ := if 0 ≤ x then ⌊x⌋ else ⌈x⌉

/-- Inner loop of `get_coeffs` (`for m in range(n+1)`), threading the running
table pointer `temp`.  For `m ≠ 0` one value is consumed for `g` and one for
`h`; for `m = 0` a single value is consumed for `g` and `h` gets `None`.
Returns the `g`-row entries, the `h`-row entries and the final pointer. -/
def mLoop (val : ℤ → ℚ) : List ℕ → ℤ → List (Option ℚ) × List (Option ℚ) × ℤ
  | [], temp => ([], [], temp)
  | m :: ms, temp =>
    if m ≠ 0 then
      let rest := mLoop val ms (temp + 2)
      (some (val temp) :: rest.1, some (val (temp + 1)) :: rest.2.1, rest.2.2)
    else
      let rest := mLoop val ms (temp + 1)
      (some (val temp) :: rest.1, none :: rest.2.1, rest.2.2)

/-- Outer loop of `get_coeffs` (`for n in range(nmx+1)`).  Each degree `n`
contributes one `g`-row and one `h`-row built by `mLoop`; the degree-0
`g`-row additionally gets a leading `None` (the `g[0].append(None)` of the
source). -/
def nLoop (val : ℤ → ℚ) : List ℕ → ℤ → List (List (Option ℚ)) × List (List (Option ℚ)) × ℤ
  | [], temp => ([], [], temp)
  | n :: ns, temp =>
    let row := mLoop val (List.range (n + 1)) temp
    let grow := if n = 0 then none :: row.1 else row.1
    let rest := nLoop val ns row.2.2
    (grow :: rest.1, row.2.1 :: rest.2.1, rest.2.2)

/-- Embedding of `igrf_coeffs.get_coeffs(gh, date)`.  Out-of-range dates give
the empty pair (the logged soft failure of the source).  In the branches,
Python's `int(t)` for the nonnegative `t` at hand is `pyInt`, and the value
interpolated at pointer `i` is `tc * gh[i] + t * gh[i + nc]`. -/
def get_coeffs (gh : List ℚ) (date : ℚ) : List (List (Option ℚ)) × List (List (Option ℚ)) :=
  if date < 1900 ∨ date > 2030 then ([], [])
  else if date ≥ 2020 then
    let t := date - 2020
    let tc : ℚ := 1
    let ll : ℤ := 3060 + 195
    let nc : ℤ := 195
    let r := nLoop (fun i => tc * pyGet gh i + t * pyGet gh (i + nc)) (List.range (13 + 1)) (ll - 1)
    (r.1, r.2.1)
  else if date < 1995 then
    let t0 := 0.2 * (date - 1900)
    let t := t0 - pyInt t0
    let tc := 1 - t
    let nc : ℤ := 120
    let ll : ℤ := nc * pyInt t0
    let r := nLoop (fun i => tc * pyGet gh i + t * pyGet gh (i + nc)) (List.range (10 + 1)) (ll - 1)
    (r.1, r.2.1)
  else
    let t0 := 0.2 * (date - 1900)
    let t := t0 - pyInt t0
    let tc := 1 - t
    let nc : ℤ := 195
    let ll : ℤ := 120 * 19 + nc * pyInt (0.2 * (date - 1995))
    let r := nLoop (fun i => tc * pyGet gh i + t * pyGet gh (i + nc)) (List.range (13 + 1)) (ll - 1)
    (r.1, r.2.1)

/-- Accessor `g[n][m]` on the result of `get_coeffs`, with the value `0` for
missing or `None` entries. -/
def gA (gh : List ℚ) (date : ℚ) (n m : ℕ) : ℚ :=
  ((((get_coeffs gh date).1).getD n []).getD m none).getD 0

/-- Accessor `h[n][m]` on the result of `get_coeffs`, with the value `0` for
missing or `None` entries. -/
def hA (gh : List ℚ) (date : ℚ) (n m : ℕ) : ℚ :=
  ((((get_coeffs gh date).2).getD n []).getD m none).getD 0

/-- Flattening loop of `load_coeffs` over the transposed coefficient table
(`gh2arr`), with `i` the running epoch-column counter: the first 19 columns
contribute exactly their entries at row indexes `0..119` (out-of-range rows
would raise in Python; here they default to `0`), later columns contribute
every row. -/
def loadRows : ℕ → List (List ℚ) → List ℚ
  | _, [] => []
  | i, col :: rest =>
    (if i < 19 then (List.range 120).map (fun j => col.getD j 0) else col) ++ loadRows (i + 1) rest

/-- Embedding of the flattening performed by `igrf_coeffs.load_coeffs` after
the file has been parsed and transposed (file I/O and float parsing are the
out-of-scope collaborators): flatten the epoch columns with `loadRows` and
append the trailing `0` sentinel. -/
def load_coeffs (gh2arr : List (List ℚ)) : List ℚ := loadRows 0 gh2arr ++ [0]

/-- Closed form of a `g`-row of degree `n` produced by `get_coeffs` when the
`mLoop` for that degree starts at pointer `s` (used only in lemma
statements). -/
def gRow (val : ℤ → ℚ) (n : ℕ) (s : ℤ) : List (Option ℚ) :=
  (if n = 0 then [none] else []) ++
    some (val s) :: (List.range n).map (fun (j : ℕ) => some (val (s + 2 * (j : ℤ) + 1)))

/-- Closed form of an `h`-row of degree `n` starting at pointer `s`. -/
def hRow (val : ℤ → ℚ) (n : ℕ) (s : ℤ) : List (Option ℚ) :=
  none :: (List.range n).map (fun (j : ℕ) => some (val (s + 2 * (j : ℤ) + 2)))

/-- Offset of the coefficient `g(n,m)` inside its degree-`n` row: `g(n,0)`
comes first, `g(n,m)` for `m ≥ 1` sits `2m - 1` entries further. -/
def gOffZ (m : ℕ) : ℤ := if m = 0 then 0 else 2 * (m : ℤ) - 1

/-- Flat index of `g(n,m)` inside one epoch block (degree-sequential IGRF
layout: `g(1,0), g(1,1), h(1,1), g(2,0), ...`). -/
def flatG (n m : ℕ) : ℤ := (n : ℤ) ^ 2 - 1 + gOffZ m

/-- Flat index of `h(n,m)` (`m ≥ 1`) inside one epoch block. -/
def flatH (n m : ℕ) : ℤ := (n : ℤ) ^ 2 - 1 + 2 * (m : ℤ)

/-- Concrete coefficient table whose only nonzero entry is `g(1,0) = -1` in
the 2020 epoch block (flat offset 3255): its centered-dipole north pole for
year 2020 is exactly the geographic north pole, which makes the rotation
matrix explicitly computable in the counterexamples below. -/
def ghAxial : List ℚ := List.replicate 3255 0 ++ [-1]

open scoped Classical

noncomputable section

/-- Round-half-to-even on `ℝ`, the semantics of `np.round` with no decimal
argument. -/
def np_round (x : ℝ) : ℤ :=
  if Int.fract x = 1 / 2 then (if Even ⌊x⌋ then ⌊x⌋ else ⌊x⌋ + 1) else round x

/-- Semantics of `np.round(x, decimals)`. -/
def rnd (d : ℤ) (x : ℝ) : ℝ := (np_round (x * (10 : ℝ) ^ d) : ℝ) / (10 : ℝ) ^ d

/-- Componentwise `np.round(·, d)` on a coordinate triple. -/
def rndTriple (d : ℤ) (p : ℝ × ℝ × ℝ) : ℝ × ℝ × ℝ := (rnd d p.1, rnd d p.2.1, rnd d p.2.2)

/-- Float remainder `x % y` of Python/numpy (floor remainder; for `y > 0`
the result lies in `[0, y)`). -/
def pymod (x y : ℝ) : ℝ := x - y * ⌊x / y⌋

/-- Semantics of `np.deg2rad` / `np.radians`. -/
def deg2rad (x : ℝ) : ℝ := x * Real.pi / 180

/-- Semantics of `np.rad2deg` / `np.degrees`. -/
def rad2deg (x : ℝ) : ℝ := x * 180 / Real.pi

/-- Semantics of `np.arctan2 y x`: the argument of the complex number
`x + y*I`, valued in `(-π, π]`. -/
def arctan2 (y x : ℝ) : ℝ := Complex.arg ⟨x, y⟩

/-- WGS84 semimajor axis in meters.  Modelled from the spec: `constants.py`
reads it from the external collaborator `pymap3d.ellipsoid.Ellipsoid("wgs84")`
(the spec's "ellipsoid parameters" collaborator); its value is the standard
WGS84 equatorial radius. -/
def RE_M : ℝ := 6378137

/-- Embedding of `compute_pos_centered_dipole_north_pole`: geocentric
colatitude and longitude (radians) of the centered-dipole north pole from
the degree-1 Gauss coefficients of the requested year.  The `ValueError`
raised when coefficient extraction came back empty is `none`; the source's
`x ** 0.5` on the nonnegative sum of squares is `Real.sqrt`. -/
def compute_pos_centered_dipole_north_pole (gh : List ℚ) (year : ℚ) : Option (ℝ × ℝ) :=
  if (get_coeffs gh year).1 = [] then none
  else
    let g10 : ℝ := (gA gh year 1 0 : ℝ)
    let g11 : ℝ := (gA gh year 1 1 : ℝ)
    let h11 : ℝ := (hA gh year 1 1 : ℝ)
    let b0 := Real.sqrt (g10 ^ 2 + g11 ^ 2 + h11 ^ 2)
    some (Real.arccos (-g10 / b0), arctan2 h11 g11 - Real.pi)

/-- Row 1 (`xx`) of the rotation matrix built by `ecef2eccdf` from the pole
position `(colat, long)`. -/
def cdBasisX (p : ℝ × ℝ) : ℝ × ℝ × ℝ :=
  (Real.cos p.1 * Real.cos p.2, Real.cos p.1 * Real.sin p.2, -Real.sin p.1)

/-- Row 2 (`yy`) of the rotation matrix. -/
def cdBasisY (p : ℝ × ℝ) : ℝ × ℝ × ℝ := (-Real.sin p.2, Real.cos p.2, 0)

/-- Row 3 (`m`, the dipole-axis unit vector) of the rotation matrix. -/
def cdBasisM (p : ℝ × ℝ) : ℝ × ℝ × ℝ :=
  (Real.sin p.1 * Real.cos p.2, Real.sin p.1 * Real.sin p.2, Real.cos p.1)

/-- Dot product on coordinate triples. -/
def dot3 (a b : ℝ × ℝ × ℝ) : ℝ := a.1 * b.1 + a.2.1 * b.2.1 + a.2.2 * b.2.2

/-- Action of the geocentric-to-CD rotation matrix `R` (rows `xx, yy, m`). -/
def cdRot (p : ℝ × ℝ) (v : ℝ × ℝ × ℝ) : ℝ × ℝ × ℝ :=
  (dot3 (cdBasisX p) v, dot3 (cdBasisY p) v, dot3 (cdBasisM p) v)

/-- Action of the transposed matrix `R.T` (columns `xx, yy, m`), the rotation
used by `eccdf2ecef`. -/
def cdRotT (p : ℝ × ℝ) (v : ℝ × ℝ × ℝ) : ℝ × ℝ × ℝ :=
  ((cdBasisX p).1 * v.1 + (cdBasisY p).1 * v.2.1 + (cdBasisM p).1 * v.2.2,
   (cdBasisX p).2.1 * v.1 + (cdBasisY p).2.1 * v.2.1 + (cdBasisM p).2.1 * v.2.2,
   (cdBasisX p).2.2 * v.1 + (cdBasisY p).2.2 * v.2.1 + (cdBasisM p).2.2 * v.2.2)

/-- Scalar core of `ecef2eccdf(x, y, z, year)`: rotate a geocentric Cartesian
triple into the CD frame for the pole of `year`. -/
def ecef2eccdf_core (gh : List ℚ) (year : ℚ) (v : ℝ × ℝ × ℝ) : Option (ℝ × ℝ × ℝ) :=
  (compute_pos_centered_dipole_north_pole gh year).map fun p => cdRot p v

/-- Scalar core of `eccdf2ecef(x, y, z, year)`: rotate a CD Cartesian triple
back with the transposed matrix. -/
def eccdf2ecef_core (gh : List ℚ) (year : ℚ) (v : ℝ × ℝ × ℝ) : Option (ℝ × ℝ × ℝ) :=
  (compute_pos_centered_dipole_north_pole gh year).map fun p => cdRotT p v

/-- Embedding of `ecef2spherical(x, y, z, decimals)` (scalar): colatitude and
east longitude in degrees and the radial distance, each `np.round`ed to
`decimals` places. -/
def ecef2spherical (d : ℤ) (v : ℝ × ℝ × ℝ) : ℝ × ℝ × ℝ :=
  let r := Real.sqrt (v.1 * v.1 + v.2.1 * v.2.1 + v.2.2 * v.2.2)
  (rnd d (rad2deg (Real.arccos (v.2.2 / r))), rnd d (rad2deg (arctan2 v.2.1 v.1)), rnd d r)

/-- Rounding-free companion of `ecef2spherical` (the same spherical
conversion with the `np.round` steps omitted), used to state what a
single-rounding pipeline would return. -/
def ecef2sphericalX (v : ℝ × ℝ × ℝ) : ℝ × ℝ × ℝ :=
  let r := Real.sqrt (v.1 * v.1 + v.2.1 * v.2.1 + v.2.2 * v.2.2)
  (rad2deg (Real.arccos (v.2.2 / r)), rad2deg (arctan2 v.2.1 v.1), r)

/-- Embedding of `spherical2ecef(colat, long, r)` (inputs in radians). -/
def spherical2ecef (colat lon r : ℝ) : ℝ × ℝ × ℝ :=
  (r * Real.sin colat * Real.cos lon, r * Real.sin colat * Real.sin lon, r * Real.cos colat)

/-- Scalar core of `geodetic2cd(lat, lon, alt_km, decimals, year)`: geodetic
to ECEF via the delegated collaborator `f` (with the km-to-m conversion of
the altitude), rotation into the CD frame, spherical conversion — which the
source calls with its default `decimals = 2` — and the final
latitude/altitude rounding at `decimals = d`. -/
def geodetic2cd_core (f : ℝ × ℝ × ℝ → ℝ × ℝ × ℝ) (gh : List ℚ) (year : ℚ) (d : ℤ)
    (p : ℝ × ℝ × ℝ) : Option (ℝ × ℝ × ℝ) :=
  (ecef2eccdf_core gh year (f (p.1, p.2.1, p.2.2 * 1000))).map fun vcd =>
    let s := ecef2spherical 2 vcd
    (rnd d (90 - s.1), s.2.1, rnd d (s.2.2 - RE_M))

/-- Scalar core of `cd2geodetic(lat_cd, lon_cd, alt_cd_m, decimals, year)`:
CD geodetic triple to CD Cartesian, rotation back to geocentric ECEF, the
delegated inverse conversion `finv` (`pymap3d.ecef2geodetic`), and the final
rounding of all three outputs at `decimals = d`. -/
def cd2geodetic_core (finv : ℝ × ℝ × ℝ → ℝ × ℝ × ℝ) (gh : List ℚ) (year : ℚ) (d : ℤ)
    (p : ℝ × ℝ × ℝ) : Option (ℝ × ℝ × ℝ) :=
  (eccdf2ecef_core gh year
      (spherical2ecef (deg2rad (90 - p.1)) (deg2rad p.2.1) (p.2.2 + RE_M))).map fun w =>
    (rnd d (finv w).1, rnd d (finv w).2.1, rnd d (finv w).2.2)

/-- Rounding-free companion of `geodetic2cd_core`: the identical pipeline
with every `np.round` omitted. -/
def geodetic2cd_exact (f : ℝ × ℝ × ℝ → ℝ × ℝ × ℝ) (gh : List ℚ) (year : ℚ)
    (p : ℝ × ℝ × ℝ) : Option (ℝ × ℝ × ℝ) :=
  (ecef2eccdf_core gh year (f (p.1, p.2.1, p.2.2 * 1000))).map fun vcd =>
    let s := ecef2sphericalX vcd
    (90 - s.1, s.2.1, s.2.2 - RE_M)

/-- Rounding-free companion of `cd2geodetic_core`. -/
def cd2geodetic_exact (finv : ℝ × ℝ × ℝ → ℝ × ℝ × ℝ) (gh : List ℚ) (year : ℚ)
    (p : ℝ × ℝ × ℝ) : Option (ℝ × ℝ × ℝ) :=
  (eccdf2ecef_core gh year
      (spherical2ecef (deg2rad (90 - p.1)) (deg2rad p.2.1) (p.2.2 + RE_M))).map finv

/-- CD-spherical stage of the `geodetic2cd` pipeline before any rounding:
geodetic input through `f`, rotation, and the exact spherical conversion. -/
def cdspherical_stage (f : ℝ × ℝ × ℝ → ℝ × ℝ × ℝ) (gh : List ℚ) (year : ℚ)
    (p : ℝ × ℝ × ℝ) : Option (ℝ × ℝ × ℝ) :=
  (ecef2eccdf_core gh year (f (p.1, p.2.1, p.2.2 * 1000))).map ecef2sphericalX

/-- Leap-day count of `helpers.subsol` (`nleap`, including the Gregorian
century correction applied for years `≤ 1900`). -/
def nleapOf (year : ℤ) : ℤ :=
  let nleap := ⌊((year : ℚ) - 1601) / 4⌋ - 99
  if year ≤ 1900 then nleap + (3 - ⌊((year : ℚ) - 1601) / 100⌋) else nleap

/-- Scalar core of `helpers.subsol`: subsolar geocentric latitude and
longitude in degrees from year, day-of-year and UT seconds of one instant
(the Astronomical Almanac low-precision solar ephemeris of the source). -/
def subsol_core (year doy : ℤ) (ut : ℝ) : ℝ × ℝ :=
  let yr : ℤ := year - 2000
  let nleap := nleapOf year
  let l0 : ℝ := -79.549 + (-0.238699 * ((yr : ℝ) - 4 * (nleap : ℝ)) + 3.08514e-2 * (nleap : ℝ))
  let g0 : ℝ := -2.472 + (-0.2558905 * ((yr : ℝ) - 4 * (nleap : ℝ)) - 3.79617e-2 * (nleap : ℝ))
  let df : ℝ := (ut / 86400 - 1.5) + (doy : ℝ)
  let lmean := l0 + 0.9856474 * df
  let grad := deg2rad (g0 + 0.9856003 * df)
  let lmrad := deg2rad (lmean + 1.915 * Real.sin grad + 0.020 * Real.sin (2 * grad))
  let sinlm := Real.sin lmrad
  let epsrad := deg2rad (23.439 - 4e-7 * (df + 365 * (yr : ℝ) + (nleap : ℝ)))
  let alpha := rad2deg (arctan2 (Real.cos epsrad * sinlm) (Real.cos lmrad))
  let sslat := rad2deg (Real.arcsin (Real.sin epsrad * sinlm))
  let etdeg0 := lmean - alpha
  let etdeg := etdeg0 - 360 * (np_round (etdeg0 / 360) : ℝ)
  let sslon0 := 180 - (ut / 240 + etdeg)
  (sslat, sslon0 - 360 * (np_round (sslon0 / 360) : ℝ))

/-- Embedding of `helpers.subsol` on a single instant: the `ValueError` for a
calendar year outside `[1601, 2100]` is `none`. -/
def subsol (year doy : ℤ) (ut : ℝ) : Option (ℝ × ℝ) :=
  if 1601 ≤ year ∧ year ≤ 2100 then some (subsol_core year doy ut) else none

/-- Scalar core of `mlon2mlt(mlon_cd, datetime, ssheight)`: the subsolar
point of the instant is projected into CD coordinates by `geodetic2cd` with
its defaults (`decimals = 2`, `year = 2021.0` — no year is passed at the
call site), and MLT is `((180 + mlon - sslon_cd) / 15) % 24`. -/
def mlon2mlt (f : ℝ × ℝ × ℝ → ℝ × ℝ × ℝ) (gh : List ℚ) (mlon : ℝ) (year doy : ℤ)
    (ut : ℝ) (ssheight : ℝ) : Option ℝ :=
  (subsol year doy ut).bind fun ss =>
    (geodetic2cd_core f gh 2021 2 (ss.1, ss.2, ssheight)).map fun cd =>
      pymod ((180 + mlon - cd.2.1) / 15) 24

/-- Elementwise application of a fallible scalar operation over a list, the
vectorized semantics of the numpy pipeline (any exception aborts the whole
vectorized call). -/
def mapMo {α β : Type} (g : α → Option β) : List α → Option (List β)
  | [] => some []
  | a :: l => (g a).bind fun b => (mapMo g l).map fun bs => b :: bs

/-- Scalar-or-array shape of a numpy-style input or output. -/
inductive NpInput (α : Type) where
  | scalar : α → NpInput α
  | arr : List α → NpInput α

/-- Shape test: is this value a (numpy) scalar rather than an ndarray. -/
def NpInput.isScalar {α : Type} : NpInput α → Bool
  | .scalar _ => true
  | .arr _ => false

/-- Element count of a shaped value (a scalar counts as one element). -/
def NpInput.count {α : Type} : NpInput α → ℕ
  | .scalar _ => 1
  | .arr l => l.length

/-- Input coercion performed at the top of `geodetic2cd`, `ecef2eccdf` and
`eccdf2ecef`: a list or ndarray stays as is, any other (scalar) input is
wrapped into a one-element array (`np.asarray([x])`). -/
def arrayify {α : Type} : NpInput α → List α
  | .scalar x => [x]
  | .arr l => l

/-- Shaped `geodetic2cd`: the input is `arrayify`d and the scalar core is
mapped over it, so the output is always an ndarray. -/
def geodetic2cd_shaped (f : ℝ × ℝ × ℝ → ℝ × ℝ × ℝ) (gh : List ℚ) (year : ℚ) (d : ℤ)
    (inp : NpInput (ℝ × ℝ × ℝ)) : Option (NpInput (ℝ × ℝ × ℝ)) :=
  (mapMo (geodetic2cd_core f gh year d) (arrayify inp)).map NpInput.arr

/-- Shaped `cd2geodetic`: the scalar pipeline is vectorized elementwise and
the internal `eccdf2ecef` wraps scalars into one-element arrays, so the
output is always an ndarray. -/
def cd2geodetic_shaped (finv : ℝ × ℝ × ℝ → ℝ × ℝ × ℝ) (gh : List ℚ) (year : ℚ) (d : ℤ)
    (inp : NpInput (ℝ × ℝ × ℝ)) : Option (NpInput (ℝ × ℝ × ℝ)) :=
  (mapMo (cd2geodetic_core finv gh year d) (arrayify inp)).map NpInput.arr

/-- Shaped `ecef2eccdf`. -/
def ecef2eccdf_shaped (gh : List ℚ) (year : ℚ)
    (inp : NpInput (ℝ × ℝ × ℝ)) : Option (NpInput (ℝ × ℝ × ℝ)) :=
  (mapMo (ecef2eccdf_core gh year) (arrayify inp)).map NpInput.arr

/-- Shaped `subsol`: a single datetime yields a scalar pair (the source
returns `sslat[0], sslon[0]`), an array of instants yields an array. -/
def subsol_shaped : NpInput (ℤ × ℤ × ℝ) → Option (NpInput (ℝ × ℝ))
  | .scalar i => (subsol i.1 i.2.1 i.2.2).map NpInput.scalar
  | .arr l => (mapMo (fun i => subsol i.1 i.2.1 i.2.2) l).map NpInput.arr

/-- Shaped `mlon2mlt`: the subsolar CD longitude is a length-1 array, so the
broadcast `(180 + np.float64(mlon_cd) - sslon_cd) / 15 % 24` is an array for
scalar and array `mlon_cd` alike. -/
def mlon2mlt_shaped (f : ℝ × ℝ × ℝ → ℝ × ℝ × ℝ) (gh : List ℚ) (inp : NpInput ℝ)
    (year doy : ℤ) (ut : ℝ) (ssheight : ℝ) : Option (NpInput ℝ) :=
  (subsol year doy ut).bind fun ss =>
    (geodetic2cd_core f gh 2021 2 (ss.1, ss.2, ssheight)).map fun cd =>
      NpInput.arr ((arrayify inp).map fun mlon => pymod ((180 + mlon - cd.2.1) / 15) 24)

end

/-! Structural lemmas about the coefficient assembly loops. -/

lemma cons_map_range {α : Type} (f : ℕ → α) (n : ℕ) (x : α) (g : ℕ → α)
    (hx : x = f 0) (hg : ∀ j, g j = f (j + 1)) :
    x :: (List.range n).map g = (List.range (n + 1)).map f := by
  subst hx
  rw [List.range_succ_eq_map, List.map_cons, List.map_map]
  congr 1
  apply List.map_congr_left; intro j _
  simp only [Function.comp_apply, hg j, Nat.succ_eq_add_one]

lemma mLoop_nonzero (val : ℤ → ℚ) (l : List ℕ) (hl : ∀ x ∈ l, x ≠ 0) (s : ℤ) :
    mLoop val l s =
      ((List.range l.length).map fun (j : ℕ) => some (val (s + 2 * (j : ℤ))),
       (List.range l.length).map fun (j : ℕ) => some (val (s + 2 * (j : ℤ) + 1)),
       s + 2 * (l.length : ℤ)) := by
  induction l generalizing s with
  | nil => simp [mLoop]
  | cons a l ih =>
    have ha : a ≠ 0 := hl a (by simp)
    rw [mLoop, if_pos ha, ih (fun x hx => hl x (by simp [hx])) (s + 2)]
    simp only [List.length_cons, Prod.mk.injEq]
    refine ⟨?_, ?_, ?_⟩
    · refine cons_map_range _ _ _ _ ?_ ?_
      · norm_num
      · intro j; congr 1; push_cast; ring
    · refine cons_map_range _ _ _ _ ?_ ?_
      · norm_num
      · intro j; congr 1; push_cast; ring
    · push_cast; ring

lemma mLoop_range (val : ℤ → ℚ) (k : ℕ) (s : ℤ) :
    mLoop val (List.range (k + 1)) s =
      (some (val s) :: (List.range k).map (fun (j : ℕ) => some (val (s + 2 * (j : ℤ) + 1))),
       none :: (List.range k).map (fun (j : ℕ) => some (val (s + 2 * (j : ℤ) + 2))),
       s + 2 * (k : ℤ) + 1) := by
  rw [List.range_succ_eq_map, mLoop, if_neg (by simp)]
  rw [mLoop_nonzero val ((List.range k).map Nat.succ) (by simp) (s + 1)]
  simp only [List.length_map, List.length_range, Prod.mk.injEq]
  refine ⟨?_, ?_, ?_⟩
  · congr 1
    apply List.map_congr_left; intro j _
    congr 1; ring
  · congr 1
    apply List.map_congr_left; intro j _
    congr 1; ring
  · ring

lemma nLoop_range_shift (val : ℤ → ℚ) (k : ℕ) :
    ∀ (c : ℕ) (s : ℤ),
      nLoop val ((List.range k).map (· + c)) s =
        ((List.range k).map fun (j : ℕ) =>
            gRow val (j + c) (s + 2 * (c : ℤ) * (j : ℤ) + (j : ℤ) ^ 2),
         (List.range k).map fun (j : ℕ) =>
            hRow val (j + c) (s + 2 * (c : ℤ) * (j : ℤ) + (j : ℤ) ^ 2),
         s + 2 * (c : ℤ) * (k : ℤ) + (k : ℤ) ^ 2) := by
  induction k with
  | zero => intro c s; simp [nLoop]
  | succ k ih =>
    intro c s
    have hlist : (List.range (k + 1)).map (· + c) = c :: (List.range k).map (· + (c + 1)) := by
      refine (cons_map_range _ _ _ _ (by simp) ?_).symm
      intro j; omega
    rw [hlist, nLoop, mLoop_range val c s, ih (c + 1) (s + 2 * (c : ℤ) + 1)]
    have hgrow : (if c = 0 then none :: some (val s) ::
          (List.range c).map (fun (j : ℕ) => some (val (s + 2 * (j : ℤ) + 1)))
        else some (val s) :: (List.range c).map (fun (j : ℕ) => some (val (s + 2 * (j : ℤ) + 1))))
        = gRow val c s := by
      unfold gRow
      split_ifs <;> simp
    simp only [Prod.mk.injEq]
    refine ⟨?_, ?_, ?_⟩
    · rw [hgrow]
      refine cons_map_range _ _ _ _ ?_ ?_
      · norm_num
      · intro j
        refine congrArg₂ _ (by omega) ?_
        push_cast; ring
    · refine cons_map_range _ _ _ _ ?_ ?_
      · simp [hRow]
      · intro j
        refine congrArg₂ _ (by omega) ?_
        push_cast; ring
    · push_cast; ring

lemma nLoop_range (val : ℤ → ℚ) (k : ℕ) (s : ℤ) :
    nLoop val (List.range k) s =
      ((List.range k).map fun (j : ℕ) => gRow val j (s + (j : ℤ) ^ 2),
       (List.range k).map fun (j : ℕ) => hRow val j (s + (j : ℤ) ^ 2),
       s + (k : ℤ) ^ 2) := by
  have h := nLoop_range_shift val k 0 s
  simpa using h

lemma getD_map_range {α : Type} (f : ℕ → α) (k n : ℕ) (hn : n < k) (d : α) :
    ((List.range k).map f).getD n d = f n := by
  rw [List.getD_eq_getElem?_getD, List.getElem?_map, List.getElem?_range hn]; rfl

lemma gRow_getD (val : ℤ → ℚ) (n : ℕ) (s : ℤ) (m : ℕ) (hn : 1 ≤ n) (hm : m ≤ n) :
    (gRow val n s).getD m none = some (val (s + gOffZ m)) := by
  unfold gRow
  rw [if_neg (by omega), List.nil_append]
  cases m with
  | zero => simp [gOffZ]
  | succ m' =>
    rw [List.getD_cons_succ, getD_map_range _ n m' (by omega)]
    unfold gOffZ
    rw [if_neg (by omega)]
    congr 1; push_cast; ring

lemma hRow_getD (val : ℤ → ℚ) (n : ℕ) (s : ℤ) (m : ℕ) (hm1 : 1 ≤ m) (hm : m ≤ n) :
    (hRow val n s).getD m none = some (val (s + 2 * (m : ℤ))) := by
  unfold hRow
  cases m with
  | zero => omega
  | succ m' =>
    rw [List.getD_cons_succ, getD_map_range _ n m' (by omega)]
    congr 1; push_cast; ring

lemma nLoop_g_access (val : ℤ → ℚ) (k n m : ℕ) (s : ℤ) (hn1 : 1 ≤ n) (hnk : n < k)
    (hm : m ≤ n) :
    ((nLoop val (List.range k) s).1.getD n []).getD m none
      = some (val (s + (n : ℤ) ^ 2 + gOffZ m)) := by
  rw [nLoop_range, getD_map_range _ k n hnk, gRow_getD val n _ m hn1 hm]

lemma nLoop_h_access (val : ℤ → ℚ) (k n m : ℕ) (s : ℤ) (hn1 : 1 ≤ n) (hnk : n < k)
    (hm1 : 1 ≤ m) (hm : m ≤ n) :
    ((nLoop val (List.range k) s).2.1.getD n []).getD m none
      = some (val (s + (n : ℤ) ^ 2 + 2 * (m : ℤ))) := by
  rw [nLoop_range, getD_map_range _ k n hnk, hRow_getD val n _ m hm1 hm]

/-! Evaluation of `get_coeffs` in each date regime. -/

lemma pyInt_of_bounds (x : ℚ) (z : ℤ) (h0 : 0 ≤ (z : ℚ)) (h1 : (z : ℚ) ≤ x)
    (h2 : x < z + 1) : pyInt x = z := by
  unfold pyInt
  rw [if_pos (le_trans h0 h1), Int.floor_eq_iff.mpr ⟨h1, h2⟩]

lemma coeffs_eval_2020 (gh : List ℚ) (date : ℚ) (h1 : 2020 ≤ date) (h2 : date ≤ 2030)
    (n m : ℕ) (hn1 : 1 ≤ n) (hn : n ≤ 13) (hm : m ≤ n) :
    gA gh date n m
        = pyGet gh (3255 + flatG n m) + (date - 2020) * pyGet gh (3255 + 195 + flatG n m)
      ∧ (1 ≤ m → hA gh date n m
        = pyGet gh (3255 + flatH n m) + (date - 2020) * pyGet gh (3255 + 195 + flatH n m)) := by
  have hcond : ¬(date < 1900 ∨ date > 2030) := by push_neg; constructor <;> linarith
  have hge : date ≥ 2020 := h1
  refine ⟨?_, fun hm1 => ?_⟩
  · unfold gA
    simp only [get_coeffs, if_neg hcond, if_pos hge]
    rw [nLoop_g_access _ (13 + 1) n m _ hn1 (by omega) hm]
    simp only [Option.getD_some]
    unfold flatG
    rw [one_mul]
    congr 2 <;> ring
  · unfold hA
    simp only [get_coeffs, if_neg hcond, if_pos hge]
    rw [nLoop_h_access _ (13 + 1) n m _ hn1 (by omega) hm1 hm]
    simp only [Option.getD_some]
    unfold flatH
    rw [one_mul]
    congr 2 <;> ring

lemma coeffs_eval_pre95 (gh : List ℚ) (date : ℚ) (h1 : 1990 ≤ date) (h2 : date < 1995)
    (n m : ℕ) (hn1 : 1 ≤ n) (hn : n ≤ 10) (hm : m ≤ n) :
    gA gh date n m
        = (1 - (date - 1990) / 5) * pyGet gh (2160 + flatG n m)
          + ((date - 1990) / 5) * pyGet gh (2280 + flatG n m)
      ∧ (1 ≤ m → hA gh date n m
        = (1 - (date - 1990) / 5) * pyGet gh (2160 + flatH n m)
          + ((date - 1990) / 5) * pyGet gh (2280 + flatH n m)) := by
  have hcond : ¬(date < 1900 ∨ date > 2030) := by push_neg; constructor <;> linarith
  have hge : ¬(date ≥ 2020) := by push_neg; linarith
  have hfl : pyInt (0.2 * (date - 1900)) = 18 := by
    refine pyInt_of_bounds _ 18 (by norm_num) (by push_cast; linarith) (by push_cast; linarith)
  have ht : 0.2 * (date - 1900) - ((18 : ℤ) : ℚ) = (date - 1990) / 5 := by push_cast; ring
  refine ⟨?_, fun hm1 => ?_⟩
  · unfold gA
    simp only [get_coeffs, if_neg hcond, if_neg hge, if_pos h2, hfl]
    rw [nLoop_g_access _ (10 + 1) n m _ hn1 (by omega) hm]
    simp only [Option.getD_some, ht]
    unfold flatG
    congr 2 <;> ring
  · unfold hA
    simp only [get_coeffs, if_neg hcond, if_neg hge, if_pos h2, hfl]
    rw [nLoop_h_access _ (10 + 1) n m _ hn1 (by omega) hm1 hm]
    simp only [Option.getD_some, ht]
    unfold flatH
    congr 2 <;> ring

lemma coeffs_eval_at95 (gh : List ℚ) (n m : ℕ) (hn1 : 1 ≤ n) (hn : n ≤ 13) (hm : m ≤ n) :
    gA gh 1995 n m = pyGet gh (2280 + flatG n m)
      ∧ (1 ≤ m → hA gh 1995 n m = pyGet gh (2280 + flatH n m)) := by
  have hcond : ¬((1995 : ℚ) < 1900 ∨ (1995 : ℚ) > 2030) := by norm_num
  have hge : ¬((1995 : ℚ) ≥ 2020) := by norm_num
  have hlt : ¬((1995 : ℚ) < 1995) := by norm_num
  have hfl : pyInt (0.2 * ((1995 : ℚ) - 1900)) = 19 := by
    refine pyInt_of_bounds _ 19 (by norm_num) (by norm_num) (by norm_num)
  have hfl2 : pyInt (0.2 * ((1995 : ℚ) - 1995)) = 0 := by
    refine pyInt_of_bounds _ 0 (by norm_num) (by norm_num) (by norm_num)
  have ht : 0.2 * ((1995 : ℚ) - 1900) - ((19 : ℤ) : ℚ) = 0 := by norm_num
  refine ⟨?_, fun hm1 => ?_⟩
  · unfold gA
    simp only [get_coeffs, if_neg hcond, if_neg hge, if_neg hlt, hfl, hfl2, ht]
    rw [nLoop_g_access _ (13 + 1) n m _ hn1 (by omega) hm]
    simp only [Option.getD_some]
    unfold flatG
    rw [sub_zero, one_mul, zero_mul, add_zero]
    congr 1; ring
  · unfold hA
    simp only [get_coeffs, if_neg hcond, if_neg hge, if_neg hlt, hfl, hfl2, ht]
    rw [nLoop_h_access _ (13 + 1) n m _ hn1 (by omega) hm1 hm]
    simp only [Option.getD_some]
    unfold flatH
    rw [sub_zero, one_mul, zero_mul, add_zero]
    congr 1; ring

lemma coeffs_eval_pre2020 (gh : List ℚ) (date : ℚ) (h1 : 2015 ≤ date) (h2 : date < 2020)
    (n m : ℕ) (hn1 : 1 ≤ n) (hn : n ≤ 13) (hm : m ≤ n) :
    gA gh date n m
        = (1 - (date - 2015) / 5) * pyGet gh (3060 + flatG n m)
          + ((date - 2015) / 5) * pyGet gh (3255 + flatG n m)
      ∧ (1 ≤ m → hA gh date n m
        = (1 - (date - 2015) / 5) * pyGet gh (3060 + flatH n m)
          + ((date - 2015) / 5) * pyGet gh (3255 + flatH n m)) := by
  have hcond : ¬(date < 1900 ∨ date > 2030) := by push_neg; constructor <;> linarith
  have hge : ¬(date ≥ 2020) := by push_neg; linarith
  have hlt : ¬(date < 1995) := by push_neg; linarith
  have hfl : pyInt (0.2 * (date - 1900)) = 23 := by
    refine pyInt_of_bounds _ 23 (by norm_num) (by push_cast; linarith) (by push_cast; linarith)
  have hfl2 : pyInt (0.2 * (date - 1995)) = 4 := by
    refine pyInt_of_bounds _ 4 (by norm_num) (by push_cast; linarith) (by push_cast; linarith)
  have ht : 0.2 * (date - 1900) - ((23 : ℤ) : ℚ) = (date - 2015) / 5 := by push_cast; ring
  refine ⟨?_, fun hm1 => ?_⟩
  · unfold gA
    simp only [get_coeffs, if_neg hcond, if_neg hge, if_neg hlt, hfl, hfl2, ht]
    rw [nLoop_g_access _ (13 + 1) n m _ hn1 (by omega) hm]
    simp only [Option.getD_some]
    unfold flatG
    congr 2 <;> ring
  · unfold hA
    simp only [get_coeffs, if_neg hcond, if_neg hge, if_neg hlt, hfl, hfl2, ht]
    rw [nLoop_h_access _ (13 + 1) n m _ hn1 (by omega) hm1 hm]
    simp only [Option.getD_some]
    unfold flatH
    congr 2 <;> ring

lemma get_coeffs_fst_ne_nil (gh : List ℚ) (date : ℚ) (h1 : 1900 ≤ date) (h2 : date ≤ 2030) :
    (get_coeffs gh date).1 ≠ [] := by
  have hcond : ¬(date < 1900 ∨ date > 2030) := by push_neg; constructor <;> linarith
  by_cases h3 : date ≥ 2020
  · simp only [get_coeffs, if_neg hcond, if_pos h3, nLoop_range]
    simp
  · by_cases h4 : date < 1995
    · simp only [get_coeffs, if_neg hcond, if_neg h3, if_pos h4, nLoop_range]
      simp
    · simp only [get_coeffs, if_neg hcond, if_neg h3, if_neg h4, nLoop_range]
      simp

/-! Lemmas for the flattening claim. -/

lemma map_range_getD_take (col : List ℚ) (n : ℕ) (h : n ≤ col.length) :
    (List.range n).map (fun j => col.getD j 0) = col.take n := by
  apply List.ext_getElem
  · simp [h]
  · intro i h1 h2
    simp only [List.length_map, List.length_range] at h1
    rw [List.getElem_map, List.getElem_range, List.getElem_take]
    exact List.getD_eq_getElem col 0 (by omega)

lemma loadRows_eq (gh2arr : List (List ℚ)) (h : ∀ col ∈ gh2arr, 120 ≤ col.length) :
    ∀ i, loadRows i gh2arr
      = ((gh2arr.take (19 - i)).map (fun c => c.take 120)).flatten
        ++ (gh2arr.drop (19 - i)).flatten := by
  induction gh2arr with
  | nil => intro i; simp [loadRows]
  | cons c rest ih =>
    intro i
    have hc : 120 ≤ c.length := h c (by simp)
    have ih' := ih (fun col hcol => h col (by simp [hcol]))
    by_cases hi : i < 19
    · rw [loadRows, if_pos hi, map_range_getD_take c 120 hc, ih' (i + 1)]
      have h19 : 19 - i = (19 - (i + 1)) + 1 := by omega
      rw [h19, List.take_succ_cons, List.drop_succ_cons, List.map_cons, List.flatten_cons,
        List.append_assoc]
    · rw [loadRows, if_neg hi, ih' (i + 1)]
      have h0 : 19 - i = 0 := by omega
      have h0' : 19 - (i + 1) = 0 := by omega
      simp [h0, h0']

/-- C3: with at least 120 rows in every epoch column, `load_coeffs` emits, in
order, exactly the first 120 rows of each of the first 19 epoch columns
(later rows of those columns are dropped), then every row of each epoch
column at index at least 19, and finally one trailing `0.0` sentinel as the
last element. -/
theorem C3_flattening (gh2arr : List (List ℚ)) (h : ∀ col ∈ gh2arr, 120 ≤ col.length) :
    load_coeffs gh2arr
      = ((gh2arr.take 19).map (fun c => c.take 120)).flatten
        ++ (gh2arr.drop 19).flatten ++ [0] := by
  unfold load_coeffs
  rw [loadRows_eq gh2arr h 0]

/-- Witness for C3 at a concrete 130-row single-column table. -/
theorem C3_flattening_witness :
    load_coeffs [List.replicate 130 (1 : ℚ)]
      = (([List.replicate 130 (1 : ℚ)].take 19).map (fun c => c.take 120)).flatten
        ++ ([List.replicate 130 (1 : ℚ)].drop 19).flatten ++ [0] :=
  C3_flattening [List.replicate 130 (1 : ℚ)] (by simp)

/-- C2: for dates in `[2020, 2030]`, every Gauss coefficient `g(n,m)` /
`h(n,m)` returned by `get_coeffs` equals `base + (date - 2020) * sv`, where
`base` is read from the last full-epoch block starting at flat offset
`3060 + 195 = 3255` and `sv` from the secular-variation block exactly `195`
entries later; the dependence on `t = date - 2020` is linear. -/
theorem C2_post2020_extrapolation (gh : List ℚ) (date : ℚ) (n m : ℕ)
    (h1 : 2020 ≤ date) (h2 : date ≤ 2030) (hn1 : 1 ≤ n) (hn : n ≤ 13) (hm : m ≤ n) :
    gA gh date n m
        = pyGet gh (3255 + flatG n m) + (date - 2020) * pyGet gh (3255 + 195 + flatG n m)
      ∧ (1 ≤ m → hA gh date n m
        = pyGet gh (3255 + flatH n m) + (date - 2020) * pyGet gh (3255 + 195 + flatH n m)) :=
  coeffs_eval_2020 gh date h1 h2 n m hn1 hn hm

/-- Witness for C2 at `date = 2021`, `(n, m) = (1, 1)`. -/
theorem C2_post2020_extrapolation_witness :
    gA [] 2021 1 1
        = pyGet [] (3255 + flatG 1 1) + ((2021 : ℚ) - 2020) * pyGet [] (3255 + 195 + flatG 1 1)
      ∧ (1 ≤ 1 → hA [] 2021 1 1
        = pyGet [] (3255 + flatH 1 1) + ((2021 : ℚ) - 2020) * pyGet [] (3255 + 195 + flatH 1 1)) :=
  C2_post2020_extrapolation [] 2021 1 1 (by norm_num) (by norm_num) (by norm_num) (by norm_num)
    (by norm_num)

/-- C5: `get_coeffs` returns the empty pair exactly for dates outside
`[1900, 2030]`, and it does so by returning normally (the embedding is a
total function; the source logs and returns rather than raising). -/
theorem C5_range_rejection (gh : List ℚ) (date : ℚ) :
    get_coeffs gh date = (([] : List (List (Option ℚ))), ([] : List (List (Option ℚ))))
      ↔ (date < 1900 ∨ date > 2030) := by
  constructor
  · intro h
    by_contra hc
    push_neg at hc
    exact get_coeffs_fst_ne_nil gh date hc.1 hc.2 (by rw [h])
  · intro h
    unfold get_coeffs
    rw [if_pos h]

/-! Lemmas for the continuity claim. -/

lemma affine_close (P Q u ε M : ℚ) (hu0 : 0 ≤ 1 - u) (hM : |P - Q| ≤ M)
    (hlt : (1 - u) * (M + 1) < ε) :
    |((1 - u) * P + u * Q) - Q| < ε := by
  have h : (1 - u) * P + u * Q - Q = (1 - u) * (P - Q) := by ring
  rw [h, abs_mul, abs_of_nonneg hu0]
  nlinarith [abs_nonneg (P - Q), mul_le_mul_of_nonneg_left hM hu0]

/-- C4: the output of `get_coeffs` is left-continuous at both regime
boundaries: for every coefficient index `(n, m)` with `n ≤ 10`, the value on
`[1990, 1995)` tends to the value computed at `1995.0` by the degree-13
branch as the date approaches `1995` from below, and for every `(n, m)` with
`n ≤ 13` the value on `[2015, 2020)` tends to the value computed at `2020.0`
by the extrapolation branch (an epsilon-delta statement over the exact
rationals, so there is no discontinuity at all). -/
theorem C4_boundary_continuity (gh : List ℚ) :
    (∀ n m : ℕ, 1 ≤ n → n ≤ 10 → m ≤ n → ∀ ε : ℚ, 0 < ε → ∃ δ : ℚ, 0 < δ ∧
        ∀ date : ℚ, 1995 - δ < date → date < 1995 →
          |gA gh date n m - gA gh 1995 n m| < ε
            ∧ (1 ≤ m → |hA gh date n m - hA gh 1995 n m| < ε))
    ∧ (∀ n m : ℕ, 1 ≤ n → n ≤ 13 → m ≤ n → ∀ ε : ℚ, 0 < ε → ∃ δ : ℚ, 0 < δ ∧
        ∀ date : ℚ, 2020 - δ < date → date < 2020 →
          |gA gh date n m - gA gh 2020 n m| < ε
            ∧ (1 ≤ m → |hA gh date n m - hA gh 2020 n m| < ε)) := by
  constructor
  · intro n m hn1 hn hm ε hε
    set P := pyGet gh (2160 + flatG n m) with hP
    set Q := pyGet gh (2280 + flatG n m) with hQ
    set Ph := pyGet gh (2160 + flatH n m) with hPh
    set Qh := pyGet gh (2280 + flatH n m) with hQh
    set M := |P - Q| + |Ph - Qh| with hMdef
    have hM0 : 0 ≤ M := by positivity
    have hM1 : (0 : ℚ) < M + 1 := by linarith
    refine ⟨min 5 (5 * ε / (M + 1)), lt_min (by norm_num) (by positivity), ?_⟩
    intro date hd1 hd2
    have hd5 : 1995 - date < 5 := by
      have := min_le_left 5 (5 * ε / (M + 1)); linarith
    have hd90 : 1990 ≤ date := by linarith
    have hdu : 1995 - date < 5 * ε / (M + 1) := by
      have := min_le_right 5 (5 * ε / (M + 1)); linarith
    have hu0 : 0 ≤ 1 - (date - 1990) / 5 := by linarith
    have hdu2 : (1995 - date) * (M + 1) < 5 * ε := (lt_div_iff hM1).mp hdu
    have hlt : (1 - (date - 1990) / 5) * (M + 1) < ε := by
      have h1 : (1 - (date - 1990) / 5) * (M + 1) = (1995 - date) * (M + 1) / 5 := by ring
      rw [h1, div_lt_iff (show (0 : ℚ) < 5 by norm_num)]
      linarith
    have hg := (coeffs_eval_pre95 gh date hd90 hd2 n m hn1 hn hm).1
    have hg95 := (coeffs_eval_at95 gh n m hn1 (by omega) hm).1
    refine ⟨?_, fun hm1 => ?_⟩
    · rw [hg, hg95, ← hP, ← hQ]
      exact affine_close P Q _ ε M hu0
        (by rw [hMdef]; exact le_add_of_nonneg_right (abs_nonneg _)) hlt
    · have hh := (coeffs_eval_pre95 gh date hd90 hd2 n m hn1 hn hm).2 hm1
      have hh95 := (coeffs_eval_at95 gh n m hn1 (by omega) hm).2 hm1
      rw [hh, hh95, ← hPh, ← hQh]
      refine affine_close Ph Qh _ ε M hu0 ?_ hlt
      rw [hMdef]
      exact le_add_of_nonneg_left (abs_nonneg _)
  · intro n m hn1 hn hm ε hε
    set P := pyGet gh (3060 + flatG n m) with hP
    set Q := pyGet gh (3255 + flatG n m) with hQ
    set Ph := pyGet gh (3060 + flatH n m) with hPh
    set Qh := pyGet gh (3255 + flatH n m) with hQh
    set M := |P - Q| + |Ph - Qh| with hMdef
    have hM0 : 0 ≤ M := by positivity
    have hM1 : (0 : ℚ) < M + 1 := by linarith
    refine ⟨min 5 (5 * ε / (M + 1)), lt_min (by norm_num) (by positivity), ?_⟩
    intro date hd1 hd2
    have hd5 : 2020 - date < 5 := by
      have := min_le_left 5 (5 * ε / (M + 1)); linarith
    have hd15 : 2015 ≤ date := by linarith
    have hdu : 2020 - date < 5 * ε / (M + 1) := by
      have := min_le_right 5 (5 * ε / (M + 1)); linarith
    have hu0 : 0 ≤ 1 - (date - 2015) / 5 := by linarith
    have hdu2 : (2020 - date) * (M + 1) < 5 * ε := (lt_div_iff hM1).mp hdu
    have hlt : (1 - (date - 2015) / 5) * (M + 1) < ε := by
      have h1 : (1 - (date - 2015) / 5) * (M + 1) = (2020 - date) * (M + 1) / 5 := by ring
      rw [h1, div_lt_iff (show (0 : ℚ) < 5 by norm_num)]
      linarith
    have hg := (coeffs_eval_pre2020 gh date hd15 hd2 n m hn1 hn hm).1
    have hg20 : gA gh 2020 n m = Q := by
      have := (coeffs_eval_2020 gh 2020 (by norm_num) (by norm_num) n m hn1 hn hm).1
      rw [this, hQ]; ring
    refine ⟨?_, fun hm1 => ?_⟩
    · rw [hg, hg20, ← hP, ← hQ]
      exact affine_close P Q _ ε M hu0
        (by rw [hMdef]; exact le_add_of_nonneg_right (abs_nonneg _)) hlt
    · have hh := (coeffs_eval_pre2020 gh date hd15 hd2 n m hn1 hn hm).2 hm1
      have hh20 : hA gh 2020 n m = Qh := by
        have := (coeffs_eval_2020 gh 2020 (by norm_num) (by norm_num) n m hn1 hn hm).2 hm1
        rw [this, hQh]; ring
      rw [hh, hh20, ← hPh, ← hQh]
      refine affine_close Ph Qh _ ε M hu0 ?_ hlt
      rw [hMdef]
      exact le_add_of_nonneg_left (abs_nonneg _)

/-- Witness for C4 at the 1995 boundary, `(n, m) = (1, 0)`, `ε = 1`. -/
theorem C4_boundary_continuity_witness :
    ∃ δ : ℚ, 0 < δ ∧ ∀ date : ℚ, 1995 - δ < date → date < 1995 →
      |gA [] date 1 0 - gA [] 1995 1 0| < 1
        ∧ (1 ≤ 0 → |hA [] date 1 0 - hA [] 1995 1 0| < 1) :=
  (C4_boundary_continuity []).1 1 0 (by norm_num) (by norm_num) (by norm_num) 1 (by norm_num)


/-! Helper lemmas for the real-valued layer. -/

lemma pymod_eq_fract (x y : ℝ) (hy : y ≠ 0) : pymod x y = y * Int.fract (x / y) := by
  unfold pymod Int.fract
  field_simp

lemma pymod_nonneg_lt (x y : ℝ) (hy : 0 < y) : 0 ≤ pymod x y ∧ pymod x y < y := by
  rw [pymod_eq_fract x y hy.ne']
  constructor
  · exact mul_nonneg hy.le (Int.fract_nonneg _)
  · calc y * Int.fract (x / y) < y * 1 := by
          exact mul_lt_mul_of_pos_left (Int.fract_lt_one _) hy
    _ = y := mul_one y

lemma pymod_add_self (x : ℝ) : pymod (x + 24) 24 = pymod x 24 := by
  unfold pymod
  have h : (x + 24) / 24 = x / 24 + 1 := by ring
  rw [h, Int.floor_add_one]
  push_cast
  ring

lemma pole_some (gh : List ℚ) (year : ℚ) (h1 : 1900 ≤ year) (h2 : year ≤ 2030) :
    ∃ pl, compute_pos_centered_dipole_north_pole gh year = some pl := by
  unfold compute_pos_centered_dipole_north_pole
  rw [if_neg (get_coeffs_fst_ne_nil gh year h1 h2)]
  exact ⟨_, rfl⟩

lemma geodetic2cd_core_some (f : ℝ × ℝ × ℝ → ℝ × ℝ × ℝ) (gh : List ℚ) (year : ℚ) (d : ℤ)
    (p : ℝ × ℝ × ℝ) (h1 : 1900 ≤ year) (h2 : year ≤ 2030) :
    (geodetic2cd_core f gh year d p).isSome := by
  obtain ⟨pl, hpl⟩ := pole_some gh year h1 h2
  simp [geodetic2cd_core, ecef2eccdf_core, hpl]

lemma cd2geodetic_core_some (finv : ℝ × ℝ × ℝ → ℝ × ℝ × ℝ) (gh : List ℚ) (year : ℚ) (d : ℤ)
    (p : ℝ × ℝ × ℝ) (h1 : 1900 ≤ year) (h2 : year ≤ 2030) :
    (cd2geodetic_core finv gh year d p).isSome := by
  obtain ⟨pl, hpl⟩ := pole_some gh year h1 h2
  simp [cd2geodetic_core, eccdf2ecef_core, hpl]

lemma ecef2eccdf_core_some (gh : List ℚ) (year : ℚ) (p : ℝ × ℝ × ℝ)
    (h1 : 1900 ≤ year) (h2 : year ≤ 2030) :
    (ecef2eccdf_core gh year p).isSome := by
  obtain ⟨pl, hpl⟩ := pole_some gh year h1 h2
  simp [ecef2eccdf_core, hpl]

lemma mapMo_length {α β : Type} (g : α → Option β) (l : List α) (h : ∀ a ∈ l, (g a).isSome) :
    ∃ l', mapMo g l = some l' ∧ l'.length = l.length := by
  induction l with
  | nil => exact ⟨[], rfl, rfl⟩
  | cons a l ih =>
    obtain ⟨b, hb⟩ := Option.isSome_iff_exists.mp (h a (by simp))
    obtain ⟨l', hl', hlen⟩ := ih (fun x hx => h x (by simp [hx]))
    refine ⟨b :: l', ?_, by simp [hlen]⟩
    rw [mapMo, hb, hl']
    rfl

/-- C6: whenever the Gauss coefficients for the requested year are nonempty,
the dipole-pole solver returns `(arccos (-g10 / B0), atan2 h11 g11 - pi)`
with `B0 = sqrt (g10^2 + g11^2 + h11^2)` computed from the degree-1
coefficients of that year; the colatitude lies in `[0, pi]` and the
longitude lies in the atan2 range `(-pi, pi]` shifted down by `pi`, i.e.
`(-2 pi, 0]` (not normalized to `[0, 2 pi)`). -/
theorem C6_dipole_pole (gh : List ℚ) (year : ℚ) (hne : (get_coeffs gh year).1 ≠ []) :
    compute_pos_centered_dipole_north_pole gh year
        = some (Real.arccos (-((gA gh year 1 0 : ℝ)) /
            Real.sqrt ((gA gh year 1 0 : ℝ) ^ 2 + (gA gh year 1 1 : ℝ) ^ 2
              + (hA gh year 1 1 : ℝ) ^ 2)),
            arctan2 (hA gh year 1 1 : ℝ) (gA gh year 1 1 : ℝ) - Real.pi)
      ∧ Real.arccos (-((gA gh year 1 0 : ℝ)) /
            Real.sqrt ((gA gh year 1 0 : ℝ) ^ 2 + (gA gh year 1 1 : ℝ) ^ 2
              + (hA gh year 1 1 : ℝ) ^ 2)) ∈ Set.Icc 0 Real.pi
      ∧ arctan2 (hA gh year 1 1 : ℝ) (gA gh year 1 1 : ℝ) - Real.pi
          ∈ Set.Ioc (-(2 * Real.pi)) 0 := by
  refine ⟨?_, ⟨Real.arccos_nonneg _, Real.arccos_le_pi _⟩, ?_, ?_⟩
  · unfold compute_pos_centered_dipole_north_pole
    rw [if_neg hne]
  · have h := Complex.neg_pi_lt_arg (⟨(gA gh year 1 1 : ℝ), (hA gh year 1 1 : ℝ)⟩ : ℂ)
    unfold arctan2
    linarith
  · have h := Complex.arg_le_pi (⟨(gA gh year 1 1 : ℝ), (hA gh year 1 1 : ℝ)⟩ : ℂ)
    unfold arctan2
    linarith

/-- Witness for C6 at the empty table and year 2000. -/
theorem C6_dipole_pole_witness :
    compute_pos_centered_dipole_north_pole [] 2000
        = some (Real.arccos (-((gA [] 2000 1 0 : ℝ)) /
            Real.sqrt ((gA [] 2000 1 0 : ℝ) ^ 2 + (gA [] 2000 1 1 : ℝ) ^ 2
              + (hA [] 2000 1 1 : ℝ) ^ 2)),
            arctan2 (hA [] 2000 1 1 : ℝ) (gA [] 2000 1 1 : ℝ) - Real.pi)
      ∧ Real.arccos (-((gA [] 2000 1 0 : ℝ)) /
            Real.sqrt ((gA [] 2000 1 0 : ℝ) ^ 2 + (gA [] 2000 1 1 : ℝ) ^ 2
              + (hA [] 2000 1 1 : ℝ) ^ 2)) ∈ Set.Icc 0 Real.pi
      ∧ arctan2 (hA [] 2000 1 1 : ℝ) (gA [] 2000 1 1 : ℝ) - Real.pi
          ∈ Set.Ioc (-(2 * Real.pi)) 0 :=
  C6_dipole_pole [] 2000 (get_coeffs_fst_ne_nil [] 2000 (by norm_num) (by norm_num))

/-- C9: for every valid instant, `mlon2mlt` succeeds, its value is the
floor-remainder `((180 + mlon - sslon_cd) / 15) mod 24` and therefore always
lies in `[0, 24)`, and shifting the magnetic longitude by `360` degrees
leaves the value unchanged. -/
theorem C9_mlt_range_periodic (f : ℝ × ℝ × ℝ → ℝ × ℝ × ℝ) (gh : List ℚ) (mlon : ℝ)
    (year doy : ℤ) (ut ssheight : ℝ) (hy1 : 1601 ≤ year) (hy2 : year ≤ 2100) :
    ∃ v, mlon2mlt f gh mlon year doy ut ssheight = some v ∧ 0 ≤ v ∧ v < 24
      ∧ mlon2mlt f gh (mlon + 360) year doy ut ssheight = some v := by
  obtain ⟨q, hq⟩ := Option.isSome_iff_exists.mp
    (geodetic2cd_core_some f gh 2021 2
      ((subsol_core year doy ut).1, (subsol_core year doy ut).2, ssheight)
      (by norm_num) (by norm_num))
  have hss : subsol year doy ut = some (subsol_core year doy ut) := by
    unfold subsol
    rw [if_pos ⟨hy1, hy2⟩]
  refine ⟨pymod ((180 + mlon - q.2.1) / 15) 24, ?_, ?_, ?_, ?_⟩
  · unfold mlon2mlt
    rw [hss]
    simp [hq]
  · exact (pymod_nonneg_lt _ 24 (by norm_num)).1
  · exact (pymod_nonneg_lt _ 24 (by norm_num)).2
  · unfold mlon2mlt
    rw [hss]
    have h : (180 + (mlon + 360) - q.2.1) / 15 = (180 + mlon - q.2.1) / 15 + 24 := by ring
    simp [hq, h, pymod_add_self]

/-- Witness for C9 at a concrete instant. -/
theorem C9_mlt_range_periodic_witness :
    ∃ v, mlon2mlt id [] 10 2021 343 43200 318550 = some v ∧ 0 ≤ v ∧ v < 24
      ∧ mlon2mlt id [] (10 + 360) 2021 343 43200 318550 = some v :=
  C9_mlt_range_periodic id [] 10 2021 343 43200 318550 (by norm_num) (by norm_num)

/-- C10: `mlon2mlt` projects the subsolar point into CD coordinates with the
fixed default epoch `year = 2021.0`, whatever the year of the instant: the
instant enters only through the subsolar point, so two instants with the
same subsolar point give the same MLT. -/
theorem C10_mlt_fixed_epoch (f : ℝ × ℝ × ℝ → ℝ × ℝ × ℝ) (gh : List ℚ) (mlon : ℝ)
    (year doy : ℤ) (ut ssheight : ℝ) :
    mlon2mlt f gh mlon year doy ut ssheight
        = (subsol year doy ut).bind (fun ss =>
            (geodetic2cd_core f gh 2021 2 (ss.1, ss.2, ssheight)).map fun cd =>
              pymod ((180 + mlon - cd.2.1) / 15) 24)
      ∧ (∀ (year2 doy2 : ℤ) (ut2 : ℝ), subsol year doy ut = subsol year2 doy2 ut2 →
          mlon2mlt f gh mlon year doy ut ssheight
            = mlon2mlt f gh mlon year2 doy2 ut2 ssheight) := by
  refine ⟨rfl, ?_⟩
  intro year2 doy2 ut2 hss
  unfold mlon2mlt
  rw [hss]

/-- Witness for C10: two instants with equal subsolar output (here the same
instant twice) give equal MLT. -/
theorem C10_mlt_fixed_epoch_witness :
    mlon2mlt id [] 10 2021 343 43200 318550 = mlon2mlt id [] 10 2021 343 43200 318550 :=
  (C10_mlt_fixed_epoch id [] 10 2021 343 43200 318550).2 2021 343 43200 rfl

/-- C8 counterexample: `geodetic2cd` on a scalar (single-value) input returns
an ndarray (a length-1 array), not a scalar-shaped output — the claim that
every transform maps scalars to scalar-shaped outputs fails. -/
theorem C8_shape_counterexample :
    (geodetic2cd_shaped id [] 2020 2 (.scalar ((1 : ℝ), (2 : ℝ), (3 : ℝ)))).map NpInput.isScalar
        = some false
      ∧ ¬ (geodetic2cd_shaped id [] 2020 2
            (.scalar ((1 : ℝ), (2 : ℝ), (3 : ℝ)))).map NpInput.isScalar = some true := by
  obtain ⟨q, hq⟩ := Option.isSome_iff_exists.mp
    (geodetic2cd_core_some id [] 2020 2 ((1 : ℝ), (2 : ℝ), (3 : ℝ)) (by norm_num) (by norm_num))
  constructor
  · simp [geodetic2cd_shaped, arrayify, mapMo, hq, NpInput.isScalar]
  · simp [geodetic2cd_shaped, arrayify, mapMo, hq, NpInput.isScalar]

/-- C8 as amended: scalar inputs to `geodetic2cd`, `cd2geodetic`,
`ecef2eccdf` and `mlon2mlt` yield length-1 ndarrays (not scalar-shaped
outputs); `subsol` alone maps a scalar instant to a scalar; and sequence
inputs of length `N` yield outputs of length `N` for all five functions. -/
theorem C8_shape_amended (f finv : ℝ × ℝ × ℝ → ℝ × ℝ × ℝ) (gh : List ℚ) (year : ℚ) (d : ℤ)
    (ssheight : ℝ) (h1 : 1900 ≤ year) (h2 : year ≤ 2030) :
    (∀ p, (geodetic2cd_shaped f gh year d (.scalar p)).map NpInput.isScalar = some false
       ∧ (geodetic2cd_shaped f gh year d (.scalar p)).map NpInput.count = some 1)
    ∧ (∀ ps : List (ℝ × ℝ × ℝ),
        (geodetic2cd_shaped f gh year d (.arr ps)).map NpInput.count = some ps.length)
    ∧ (∀ p, (cd2geodetic_shaped finv gh year d (.scalar p)).map NpInput.isScalar = some false
       ∧ (cd2geodetic_shaped finv gh year d (.scalar p)).map NpInput.count = some 1)
    ∧ (∀ ps : List (ℝ × ℝ × ℝ),
        (cd2geodetic_shaped finv gh year d (.arr ps)).map NpInput.count = some ps.length)
    ∧ (∀ p, (ecef2eccdf_shaped gh year (.scalar p)).map NpInput.isScalar = some false
       ∧ (ecef2eccdf_shaped gh year (.scalar p)).map NpInput.count = some 1)
    ∧ (∀ ps : List (ℝ × ℝ × ℝ),
        (ecef2eccdf_shaped gh year (.arr ps)).map NpInput.count = some ps.length)
    ∧ (∀ i : ℤ × ℤ × ℝ, 1601 ≤ i.1 → i.1 ≤ 2100 →
        (subsol_shaped (.scalar i)).map NpInput.isScalar = some true)
    ∧ (∀ l : List (ℤ × ℤ × ℝ), (∀ i ∈ l, 1601 ≤ i.1 ∧ i.1 ≤ 2100) →
        (subsol_shaped (.arr l)).map NpInput.count = some l.length)
    ∧ (∀ (mlon : ℝ) (yy dd : ℤ) (uu : ℝ), 1601 ≤ yy → yy ≤ 2100 →
        (mlon2mlt_shaped f gh (.scalar mlon) yy dd uu ssheight).map NpInput.isScalar = some false
        ∧ (mlon2mlt_shaped f gh (.scalar mlon) yy dd uu ssheight).map NpInput.count = some 1)
    ∧ (∀ (ml : List ℝ) (yy dd : ℤ) (uu : ℝ), 1601 ≤ yy → yy ≤ 2100 →
        (mlon2mlt_shaped f gh (.arr ml) yy dd uu ssheight).map NpInput.count
          = some ml.length) := by
  refine ⟨fun p => ?_, fun ps => ?_, fun p => ?_, fun ps => ?_, fun p => ?_, fun ps => ?_,
    fun i hi1 hi2 => ?_, fun l hl => ?_, fun mlon yy dd uu hy1 hy2 => ?_,
    fun ml yy dd uu hy1 hy2 => ?_⟩
  · obtain ⟨q, hq⟩ := Option.isSome_iff_exists.mp (geodetic2cd_core_some f gh year d p h1 h2)
    constructor <;> simp [geodetic2cd_shaped, arrayify, mapMo, hq, NpInput.isScalar, NpInput.count]
  · obtain ⟨l', hl', hlen⟩ := mapMo_length (geodetic2cd_core f gh year d) ps
      (fun a _ => geodetic2cd_core_some f gh year d a h1 h2)
    simp [geodetic2cd_shaped, arrayify, hl', NpInput.count, hlen]
  · obtain ⟨q, hq⟩ := Option.isSome_iff_exists.mp (cd2geodetic_core_some finv gh year d p h1 h2)
    constructor <;> simp [cd2geodetic_shaped, arrayify, mapMo, hq, NpInput.isScalar, NpInput.count]
  · obtain ⟨l', hl', hlen⟩ := mapMo_length (cd2geodetic_core finv gh year d) ps
      (fun a _ => cd2geodetic_core_some finv gh year d a h1 h2)
    simp [cd2geodetic_shaped, arrayify, hl', NpInput.count, hlen]
  · obtain ⟨q, hq⟩ := Option.isSome_iff_exists.mp (ecef2eccdf_core_some gh year p h1 h2)
    constructor <;> simp [ecef2eccdf_shaped, arrayify, mapMo, hq, NpInput.isScalar, NpInput.count]
  · obtain ⟨l', hl', hlen⟩ := mapMo_length (ecef2eccdf_core gh year) ps
      (fun a _ => ecef2eccdf_core_some gh year a h1 h2)
    simp [ecef2eccdf_shaped, arrayify, hl', NpInput.count, hlen]
  · have hss : subsol i.1 i.2.1 i.2.2 = some (subsol_core i.1 i.2.1 i.2.2) := by
      unfold subsol
      rw [if_pos ⟨hi1, hi2⟩]
    simp [subsol_shaped, hss, NpInput.isScalar]
  · obtain ⟨l', hl', hlen⟩ := mapMo_length (fun i : ℤ × ℤ × ℝ => subsol i.1 i.2.1 i.2.2) l
      (fun a ha => by
        have hss : subsol a.1 a.2.1 a.2.2 = some (subsol_core a.1 a.2.1 a.2.2) := by
          unfold subsol
          rw [if_pos ⟨(hl a ha).1, (hl a ha).2⟩]
        simp [hss])
    simp [subsol_shaped, hl', NpInput.count, hlen]
  · obtain ⟨q, hq⟩ := Option.isSome_iff_exists.mp
      (geodetic2cd_core_some f gh 2021 2
        ((subsol_core yy dd uu).1, (subsol_core yy dd uu).2, ssheight)
        (by norm_num) (by norm_num))
    have hss : subsol yy dd uu = some (subsol_core yy dd uu) := by
      unfold subsol
      rw [if_pos ⟨hy1, hy2⟩]
    constructor <;>
      simp [mlon2mlt_shaped, arrayify, hss, hq, NpInput.isScalar, NpInput.count]
  · obtain ⟨q, hq⟩ := Option.isSome_iff_exists.mp
      (geodetic2cd_core_some f gh 2021 2
        ((subsol_core yy dd uu).1, (subsol_core yy dd uu).2, ssheight)
        (by norm_num) (by norm_num))
    have hss : subsol yy dd uu = some (subsol_core yy dd uu) := by
      unfold subsol
      rw [if_pos ⟨hy1, hy2⟩]
    simp [mlon2mlt_shaped, arrayify, hss, hq, NpInput.count]

/-- Witness for the amended C8 at concrete inputs. -/
theorem C8_shape_amended_witness :
    (geodetic2cd_shaped id [] 2020 2
        (.arr [((1 : ℝ), (2 : ℝ), (3 : ℝ)), ((4 : ℝ), (5 : ℝ), (6 : ℝ))])).map NpInput.count
      = some 2
    ∧ (subsol_shaped (.scalar ((2021 : ℤ), (343 : ℤ), (43200 : ℝ)))).map NpInput.isScalar
      = some true := by
  have h := C8_shape_amended id id [] 2020 2 0 (by norm_num) (by norm_num)
  exact ⟨by simpa using h.2.1 _, by simpa using h.2.2.2.2.2.2.1 _ (by norm_num) (by norm_num)⟩


/-! Evaluation of `np_round` / `rnd` at concrete values, and the explicit
axial-pole configuration used by the counterexamples. -/

lemma np_round_int (k : ℤ) : np_round (k : ℝ) = k := by
  unfold np_round
  rw [Int.fract_intCast, if_neg (by norm_num), round_intCast]

lemma np_round_eq_of (x : ℝ) (a k : ℤ) (ha1 : (a : ℝ) ≤ x) (ha2 : x < a + 1)
    (hne : x - a ≠ 1 / 2) (hk1 : (k : ℝ) ≤ x + 1 / 2) (hk2 : x + 1 / 2 < k + 1) :
    np_round x = k := by
  have hfl : ⌊x⌋ = a := Int.floor_eq_iff.mpr ⟨ha1, ha2⟩
  have hfr : Int.fract x ≠ 1 / 2 := by
    rw [show Int.fract x = x - (⌊x⌋ : ℝ) from rfl, hfl]
    exact hne
  unfold np_round
  rw [if_neg hfr, round_eq, Int.floor_eq_iff.mpr ⟨hk1, hk2⟩]

lemma rnd_of_int (d : ℤ) (x : ℝ) (k : ℤ) (h : x * (10 : ℝ) ^ d = (k : ℝ)) : rnd d x = x := by
  unfold rnd
  rw [h, np_round_int, ← h]
  have h10 : ((10 : ℝ) ^ d) ≠ 0 := by positivity
  field_simp

lemma rnd_zero (d : ℤ) : rnd d 0 = 0 := by
  refine rnd_of_int d 0 0 (by norm_num)

lemma deg2rad_zero : deg2rad 0 = 0 := by
  unfold deg2rad
  ring

lemma rad2deg_zero : rad2deg 0 = 0 := by
  unfold rad2deg
  simp

lemma arctan2_zero : arctan2 0 0 = 0 := by
  unfold arctan2
  rw [show (⟨0, 0⟩ : ℂ) = 0 from rfl, Complex.arg_zero]

lemma getD_append_right (l1 l2 : List ℚ) (n : ℕ) (h : l1.length ≤ n) (d : ℚ) :
    (l1 ++ l2).getD n d = l2.getD (n - l1.length) d := by
  rw [List.getD_eq_getElem?_getD, List.getElem?_append_right h, ← List.getD_eq_getElem?_getD]

lemma getD_of_length_le (l : List ℚ) (n : ℕ) (h : l.length ≤ n) (d : ℚ) : l.getD n d = d := by
  rw [List.getD_eq_getElem?_getD, List.getElem?_eq_none h]
  rfl

lemma pyGet_axial_3255 : pyGet ghAxial 3255 = -1 := by
  unfold pyGet ghAxial
  rw [if_pos (by norm_num)]
  rw [show ((3255 : ℤ).toNat) = 3255 from rfl]
  rw [getD_append_right _ _ _ (by rw [List.length_replicate])]
  rw [List.length_replicate]
  norm_num

lemma pyGet_axial_ge (i : ℤ) (h : 3256 ≤ i) : pyGet ghAxial i = 0 := by
  unfold pyGet ghAxial
  rw [if_pos (by omega)]
  refine getD_of_length_le _ _ ?_ _
  simp only [List.length_append, List.length_replicate, List.length_cons, List.length_nil]
  omega

lemma gA_axial_10 : gA ghAxial 2020 1 0 = -1 := by
  have h := (coeffs_eval_2020 ghAxial 2020 (le_refl _) (by norm_num) 1 0 (le_refl _)
    (by norm_num) (by norm_num)).1
  rw [h, show flatG 1 0 = 0 by norm_num [flatG, gOffZ]]
  rw [show (3255 : ℤ) + 0 = 3255 by ring, pyGet_axial_3255]
  rw [pyGet_axial_ge (3255 + 195 + 0) (by norm_num)]
  ring

lemma gA_axial_11 : gA ghAxial 2020 1 1 = 0 := by
  have h := (coeffs_eval_2020 ghAxial 2020 (le_refl _) (by norm_num) 1 1 (le_refl _)
    (by norm_num) (le_refl _)).1
  rw [h, show flatG 1 1 = 1 by norm_num [flatG, gOffZ]]
  rw [pyGet_axial_ge (3255 + 1) (by norm_num), pyGet_axial_ge (3255 + 195 + 1) (by norm_num)]
  ring

lemma hA_axial_11 : hA ghAxial 2020 1 1 = 0 := by
  have h := (coeffs_eval_2020 ghAxial 2020 (le_refl _) (by norm_num) 1 1 (le_refl _)
    (by norm_num) (le_refl _)).2 (le_refl _)
  rw [h, show flatH 1 1 = 2 by norm_num [flatH]]
  rw [pyGet_axial_ge (3255 + 2) (by norm_num), pyGet_axial_ge (3255 + 195 + 2) (by norm_num)]
  ring

lemma pole_axial :
    compute_pos_centered_dipole_north_pole ghAxial 2020 = some (0, -Real.pi) := by
  unfold compute_pos_centered_dipole_north_pole
  rw [if_neg (get_coeffs_fst_ne_nil ghAxial 2020 (by norm_num) (by norm_num))]
  rw [gA_axial_10, gA_axial_11, hA_axial_11]
  rw [show ((-1 : ℚ) : ℝ) = -1 by norm_num, show ((0 : ℚ) : ℝ) = 0 by norm_num]
  dsimp only
  rw [show (-1 : ℝ) ^ 2 + (0 : ℝ) ^ 2 + (0 : ℝ) ^ 2 = 1 by norm_num]
  rw [Real.sqrt_one, arctan2_zero]
  norm_num [Real.arccos_one]

lemma cdRot_axial_z (z : ℝ) : cdRot (0, -Real.pi) ((0 : ℝ), (0 : ℝ), z) = (0, 0, z) := by
  unfold cdRot cdBasisX cdBasisY cdBasisM dot3
  norm_num [Real.cos_pi, Real.sin_pi]

lemma cdRotT_axial_z (z : ℝ) : cdRotT (0, -Real.pi) ((0 : ℝ), (0 : ℝ), z) = (0, 0, z) := by
  unfold cdRotT cdBasisX cdBasisY cdBasisM
  norm_num [Real.cos_pi, Real.sin_pi]

lemma sqrt_axis (z : ℝ) (hz : 0 < z) :
    Real.sqrt ((0 : ℝ) * 0 + (0 : ℝ) * 0 + z * z) = z := by
  rw [show (0 : ℝ) * 0 + (0 : ℝ) * 0 + z * z = z * z by ring]
  exact Real.sqrt_mul_self hz.le

lemma ecef2spherical_axis (d : ℤ) (z : ℝ) (hz : 0 < z) :
    ecef2spherical d ((0 : ℝ), (0 : ℝ), z) = (0, 0, rnd d z) := by
  unfold ecef2spherical
  simp only [sqrt_axis z hz]
  rw [div_self hz.ne', Real.arccos_one, rad2deg_zero, arctan2_zero, rad2deg_zero, rnd_zero]

lemma ecef2sphericalX_axis (z : ℝ) (hz : 0 < z) :
    ecef2sphericalX ((0 : ℝ), (0 : ℝ), z) = (0, 0, z) := by
  unfold ecef2sphericalX
  simp only [sqrt_axis z hz]
  rw [div_self hz.ne', Real.arccos_one, rad2deg_zero, arctan2_zero, rad2deg_zero]

lemma spherical2ecef_axis (r : ℝ) : spherical2ecef 0 0 r = (0, 0, r) := by
  unfold spherical2ecef
  norm_num

/-- C7 counterexample: with caller precision `decimals = 3`, `geodetic2cd`
does not equal the unrounded pipeline rounded once at 3 decimals: the
intermediate `ecef2spherical` call rounds at its hard-coded default of 2
decimals first, so the altitude comes out as `-6378135.88` instead of the
round-once value `-6378135.877` (and the longitude output is rounded at 2,
ignoring the caller's 3).  The delegated geodetic-to-ECEF collaborator is
instantiated with the identity, which satisfies its bijectivity contract. -/
theorem C7_rounding_counterexample :
    geodetic2cd_core id ghAxial 2020 3 ((0 : ℝ), (0 : ℝ), 0.0011234)
        = some (90, 0, -6378135.88)
      ∧ (geodetic2cd_exact id ghAxial 2020 ((0 : ℝ), (0 : ℝ), 0.0011234)).map (rndTriple 3)
        = some (90, 0, -6378135.877)
      ∧ ((-6378135.88 : ℝ) ≠ -6378135.877) := by
  have hz : (0 : ℝ) < 1.1234 := by norm_num
  have hv : id ((0 : ℝ), (0 : ℝ), (0.0011234 : ℝ) * 1000) = ((0 : ℝ), (0 : ℝ), (1.1234 : ℝ)) := by
    norm_num
  have hr2 : rnd 2 (1.1234 : ℝ) = 1.12 := by
    unfold rnd
    rw [show (1.1234 : ℝ) * (10 : ℝ) ^ (2 : ℤ) = 112.34 by norm_num]
    rw [np_round_eq_of 112.34 112 112 (by norm_num) (by norm_num) (by norm_num) (by norm_num)
      (by norm_num)]
    norm_num
  have hr90 : rnd 3 (90 : ℝ) = 90 := rnd_of_int 3 90 90000 (by norm_num)
  have hralt : rnd 3 ((1.12 : ℝ) - RE_M) = -6378135.88 := by
    rw [show (1.12 : ℝ) - RE_M = -6378135.88 by norm_num [RE_M]]
    exact rnd_of_int 3 _ (-6378135880) (by norm_num)
  have hraltX : rnd 3 ((1.1234 : ℝ) - RE_M) = -6378135.877 := by
    unfold rnd
    rw [show ((1.1234 : ℝ) - RE_M) * (10 : ℝ) ^ (3 : ℤ) = -6378135876.6 by norm_num [RE_M]]
    rw [np_round_eq_of (-6378135876.6) (-6378135877) (-6378135877) (by norm_num) (by norm_num)
      (by norm_num) (by norm_num) (by norm_num)]
    norm_num
  refine ⟨?_, ?_, by norm_num⟩
  · unfold geodetic2cd_core ecef2eccdf_core
    rw [pole_axial, hv]
    simp only [Option.map_some']
    rw [cdRot_axial_z, ecef2spherical_axis 2 _ hz, hr2]
    dsimp only
    rw [show (90 : ℝ) - 0 = 90 by norm_num, hr90, hralt]
  · unfold geodetic2cd_exact ecef2eccdf_core
    rw [pole_axial, hv]
    simp only [Option.map_some']
    rw [cdRot_axial_z, ecef2sphericalX_axis _ hz]
    dsimp only [rndTriple]
    rw [show (90 : ℝ) - 0 = 90 by norm_num, hr90, hraltX, rnd_zero]

/-- C7 as amended: `geodetic2cd` first rounds the spherical stage
(colatitude, longitude, radius) at the hard-coded default of 2 decimals
(the `decimals` argument is not forwarded to `ecef2spherical`), then rounds
latitude `90 - colat` and altitude `r - RE_M` a second time at the caller's
`decimals`; the longitude output keeps only the internal 2-decimal rounding
and ignores the caller's `decimals`. -/
theorem C7_rounding_amended (f : ℝ × ℝ × ℝ → ℝ × ℝ × ℝ) (gh : List ℚ) (year : ℚ) (d : ℤ)
    (p : ℝ × ℝ × ℝ) :
    geodetic2cd_core f gh year d p
      = (cdspherical_stage f gh year p).map fun sp =>
          (rnd d (90 - rnd 2 sp.1), rnd 2 sp.2.1, rnd d (rnd 2 sp.2.2 - RE_M)) := by
  unfold geodetic2cd_core cdspherical_stage
  rw [Option.map_map]
  rfl

/-! Round-trip lemmas for the exact coordinate pipeline. -/

lemma deg2rad_rad2deg (t : ℝ) : deg2rad (rad2deg t) = t := by
  unfold deg2rad rad2deg
  field_simp

lemma rot_leftinv (pl : ℝ × ℝ) (v : ℝ × ℝ × ℝ) : cdRotT pl (cdRot pl v) = v := by
  obtain ⟨c, l⟩ := pl
  obtain ⟨x, y, z⟩ := v
  have hc := Real.sin_sq_add_cos_sq c
  have hl := Real.sin_sq_add_cos_sq l
  unfold cdRotT cdRot cdBasisX cdBasisY cdBasisM dot3
  refine Prod.ext ?_ (Prod.ext ?_ ?_)
  · dsimp only
    linear_combination (x * Real.cos l ^ 2 + y * Real.cos l * Real.sin l) * hc + x * hl
  · dsimp only
    linear_combination (x * Real.cos l * Real.sin l + y * Real.sin l ^ 2) * hc + y * hl
  · dsimp only
    linear_combination z * hc

lemma cdRotT_zero (pl : ℝ × ℝ) : cdRotT pl ((0 : ℝ), (0 : ℝ), (0 : ℝ)) = (0, 0, 0) := by
  unfold cdRotT
  refine Prod.ext ?_ (Prod.ext ?_ ?_) <;> dsimp only <;> ring

lemma spherical_inverse (x y z : ℝ) (hne : ¬(x = 0 ∧ y = 0 ∧ z = 0)) :
    spherical2ecef (Real.arccos (z / Real.sqrt (x * x + y * y + z * z)))
      (arctan2 y x) (Real.sqrt (x * x + y * y + z * z)) = (x, y, z) := by
  have hS0 : 0 < x * x + y * y + z * z := by
    rcases lt_or_eq_of_le (add_nonneg (add_nonneg (mul_self_nonneg x) (mul_self_nonneg y)) (mul_self_nonneg z) : (0 : ℝ) ≤ x * x + y * y + z * z) with h | h
    · exact h
    · exfalso
      apply hne
      have hxx : x * x = 0 :=
        le_antisymm (by nlinarith [mul_self_nonneg y, mul_self_nonneg z]) (mul_self_nonneg x)
      have hyy : y * y = 0 :=
        le_antisymm (by nlinarith [mul_self_nonneg x, mul_self_nonneg z]) (mul_self_nonneg y)
      have hzz : z * z = 0 :=
        le_antisymm (by nlinarith [mul_self_nonneg x, mul_self_nonneg y]) (mul_self_nonneg z)
      exact ⟨mul_self_eq_zero.mp hxx, mul_self_eq_zero.mp hyy, mul_self_eq_zero.mp hzz⟩
  set r := Real.sqrt (x * x + y * y + z * z) with hr
  have hrpos : 0 < r := Real.sqrt_pos.mpr hS0
  have hr2 : r ^ 2 = x * x + y * y + z * z := Real.sq_sqrt hS0.le
  have habs : |z| ≤ r := by
    have h1 : z ^ 2 ≤ x * x + y * y + z * z := by nlinarith [mul_self_nonneg x, mul_self_nonneg y]
    calc |z| = Real.sqrt (z ^ 2) := (Real.sqrt_sq_eq_abs z).symm
      _ ≤ r := Real.sqrt_le_sqrt h1
  have hz1 : -1 ≤ z / r := by
    rw [le_div_iff hrpos]
    linarith [(abs_le.mp habs).1]
  have hz2 : z / r ≤ 1 := by
    rw [div_le_one hrpos]
    linarith [(abs_le.mp habs).2]
  have hcos : Real.cos (Real.arccos (z / r)) = z / r := Real.cos_arccos hz1 hz2
  have hsin : Real.sin (Real.arccos (z / r)) = Real.sqrt (x * x + y * y) / r := by
    rw [Real.sin_arccos]
    have h1 : 1 - (z / r) ^ 2 = (x * x + y * y) / r ^ 2 := by
      field_simp
      linear_combination hr2
    rw [h1, Real.sqrt_div (add_nonneg (mul_self_nonneg x) (mul_self_nonneg y)) (r ^ 2), Real.sqrt_sq hrpos.le]
  unfold spherical2ecef
  refine Prod.ext ?_ (Prod.ext ?_ ?_)
  · dsimp only
    rw [hsin]
    by_cases hxy : x = 0 ∧ y = 0
    · obtain ⟨hx0, hy0⟩ := hxy
      rw [hx0, hy0]
      norm_num
    · have hQ : 0 < x * x + y * y := by
        rcases lt_or_eq_of_le (add_nonneg (mul_self_nonneg x) (mul_self_nonneg y) : (0 : ℝ) ≤ x * x + y * y) with h | h
        · exact h
        · exfalso
          apply hxy
          have hxx : x * x = 0 :=
            le_antisymm (by nlinarith [mul_self_nonneg y]) (mul_self_nonneg x)
          have hyy : y * y = 0 :=
            le_antisymm (by nlinarith [mul_self_nonneg x]) (mul_self_nonneg y)
          exact ⟨mul_self_eq_zero.mp hxx, mul_self_eq_zero.mp hyy⟩
      have hzc : (⟨x, y⟩ : ℂ) ≠ 0 := by
        intro hh
        exact hxy ⟨(Complex.ext_iff.mp hh).1, (Complex.ext_iff.mp hh).2⟩
      have hcosarg : Real.cos (arctan2 y x) = x / Real.sqrt (x * x + y * y) := by
        unfold arctan2
        rw [Complex.cos_arg hzc, Complex.abs_apply, Complex.normSq_mk]
      rw [hcosarg]
      have hQs : 0 < Real.sqrt (x * x + y * y) := Real.sqrt_pos.mpr hQ
      field_simp
  · dsimp only
    rw [hsin]
    by_cases hxy : x = 0 ∧ y = 0
    · obtain ⟨hx0, hy0⟩ := hxy
      rw [hx0, hy0]
      norm_num
    · have hQ : 0 < x * x + y * y := by
        rcases lt_or_eq_of_le (add_nonneg (mul_self_nonneg x) (mul_self_nonneg y) : (0 : ℝ) ≤ x * x + y * y) with h | h
        · exact h
        · exfalso
          apply hxy
          have hxx : x * x = 0 :=
            le_antisymm (by nlinarith [mul_self_nonneg y]) (mul_self_nonneg x)
          have hyy : y * y = 0 :=
            le_antisymm (by nlinarith [mul_self_nonneg x]) (mul_self_nonneg y)
          exact ⟨mul_self_eq_zero.mp hxx, mul_self_eq_zero.mp hyy⟩
      have hsinarg : Real.sin (arctan2 y x) = y / Real.sqrt (x * x + y * y) := by
        unfold arctan2
        rw [Complex.sin_arg, Complex.abs_apply, Complex.normSq_mk]
      rw [hsinarg]
      have hQs : 0 < Real.sqrt (x * x + y * y) := Real.sqrt_pos.mpr hQ
      field_simp
  · dsimp only
    rw [hcos]
    field_simp

/-- C1 as amended: over exact real arithmetic (the `np.round` steps of the
pipeline omitted) and with the delegated geodetic/ECEF collaborator pair
`(f, finv)` assumed mutually inverse, the composition
`cd2geodetic (geodetic2cd (lat, lon, alt_km, year), year)` returns exactly
`(lat, lon, 1000 * alt_km)`: the original position with the altitude
converted from the km of `geodetic2cd`'s input to the meters of
`cd2geodetic`'s output. -/
theorem C1_roundtrip_exact (f finv : ℝ × ℝ × ℝ → ℝ × ℝ × ℝ) (gh : List ℚ) (year : ℚ)
    (la lo al : ℝ) (hinv : Function.LeftInverse finv f)
    (hy1 : 1900 ≤ year) (hy2 : year ≤ 2025)
    (hla1 : -90 ≤ la) (hla2 : la ≤ 90) (hlo1 : -180 < lo) (hlo2 : lo ≤ 180) (hal : 0 ≤ al)
    (hnz : f (la, lo, al * 1000) ≠ (0, 0, 0)) :
    (geodetic2cd_exact f gh year (la, lo, al)).bind (cd2geodetic_exact finv gh year)
      = some (la, lo, al * 1000) := by
  obtain ⟨pl, hpl⟩ := pole_some gh year (by linarith) (by linarith)
  set w := cdRot pl (f (la, lo, al * 1000)) with hw
  have hstage1 : geodetic2cd_exact f gh year (la, lo, al)
      = some (90 - (ecef2sphericalX w).1, (ecef2sphericalX w).2.1,
          (ecef2sphericalX w).2.2 - RE_M) := by
    unfold geodetic2cd_exact ecef2eccdf_core
    rw [hpl]
    rfl
  rw [hstage1, Option.some_bind]
  unfold cd2geodetic_exact eccdf2ecef_core
  rw [hpl]
  simp only [Option.map_some']
  have h90 : (90 : ℝ) - (90 - (ecef2sphericalX w).1) = (ecef2sphericalX w).1 := by ring
  have hRE : (ecef2sphericalX w).2.2 - RE_M + RE_M = (ecef2sphericalX w).2.2 := by ring
  rw [h90, hRE]
  have hX1 : (ecef2sphericalX w).1
      = rad2deg (Real.arccos (w.2.2 / Real.sqrt (w.1 * w.1 + w.2.1 * w.2.1 + w.2.2 * w.2.2))) :=
    rfl
  have hX2 : (ecef2sphericalX w).2.1 = rad2deg (arctan2 w.2.1 w.1) := rfl
  have hX3 : (ecef2sphericalX w).2.2
      = Real.sqrt (w.1 * w.1 + w.2.1 * w.2.1 + w.2.2 * w.2.2) := rfl
  rw [hX1, hX2, hX3, deg2rad_rad2deg, deg2rad_rad2deg]
  have hw0 : ¬(w.1 = 0 ∧ w.2.1 = 0 ∧ w.2.2 = 0) := by
    intro hzero
    apply hnz
    have hww : w = ((0 : ℝ), (0 : ℝ), (0 : ℝ)) :=
      Prod.ext hzero.1 (Prod.ext hzero.2.1 hzero.2.2)
    have hv := rot_leftinv pl (f (la, lo, al * 1000))
    rw [← hw, hww, cdRotT_zero] at hv
    exact hv.symm
  rw [spherical_inverse w.1 w.2.1 w.2.2 hw0]
  rw [show (w.1, w.2.1, w.2.2) = w from rfl, hw, rot_leftinv, hinv (la, lo, al * 1000)]

/-- Witness for the amended C1 with the identity collaborator pair. -/
theorem C1_roundtrip_exact_witness :
    (geodetic2cd_exact id [] 2000 ((0 : ℝ), (0 : ℝ), 1)).bind (cd2geodetic_exact id [] 2000)
      = some (0, 0, 1000) := by
  have h := C1_roundtrip_exact id id [] 2000 0 0 1 (fun _ => rfl) (by norm_num) (by norm_num)
    (by norm_num) (by norm_num) (by norm_num) (by norm_num) (by norm_num)
    (by intro hh; rw [id_eq, Prod.ext_iff, Prod.ext_iff] at hh; norm_num at hh)
  simpa using h

/-- C1 counterexample: the round trip as stated fails on the altitude
because `geodetic2cd` consumes kilometers while `cd2geodetic` returns
meters.  With the identity collaborator pair (which satisfies the delegated
bijection contract), the degree-1-only table `ghAxial`, year 2020 and the
in-range position `(lat, lon, alt) = (0, 0, 1)`, the rounded pipelines of
the source return `(0, 0, 1000)`: the altitude misses the original `1` by
`999`, far beyond any rounding precision (not even within tolerance 1). -/
theorem C1_roundtrip_counterexample :
    (geodetic2cd_core id ghAxial 2020 2 ((0 : ℝ), (0 : ℝ), 1)).bind
        (cd2geodetic_core id ghAxial 2020 3)
      = some (0, 0, 1000)
    ∧ ¬ |(1000 : ℝ) - 1| ≤ 1 := by
  constructor
  · have hv : id ((0 : ℝ), (0 : ℝ), (1 : ℝ) * 1000) = ((0 : ℝ), (0 : ℝ), (1000 : ℝ)) := by
      norm_num
    have h1 : geodetic2cd_core id ghAxial 2020 2 ((0 : ℝ), (0 : ℝ), 1)
        = some (90, 0, -6377137) := by
      unfold geodetic2cd_core ecef2eccdf_core
      rw [pole_axial, hv]
      simp only [Option.map_some']
      rw [cdRot_axial_z, ecef2spherical_axis 2 _ (by norm_num : (0 : ℝ) < 1000)]
      dsimp only
      rw [rnd_of_int 2 1000 100000 (by norm_num)]
      rw [show (90 : ℝ) - 0 = 90 by norm_num, rnd_of_int 2 90 9000 (by norm_num)]
      rw [show (1000 : ℝ) - RE_M = -6377137 by norm_num [RE_M]]
      rw [rnd_of_int 2 (-6377137) (-637713700) (by norm_num)]
    rw [h1, Option.some_bind]
    unfold cd2geodetic_core eccdf2ecef_core
    rw [pole_axial]
    dsimp only
    rw [show (90 : ℝ) - 90 = 0 by norm_num, deg2rad_zero]
    rw [show (-6377137 : ℝ) + RE_M = 1000 by norm_num [RE_M]]
    rw [spherical2ecef_axis]
    simp only [Option.map_some']
    rw [cdRotT_axial_z]
    simp only [id_eq]
    rw [rnd_zero, rnd_of_int 3 1000 1000000 (by norm_num)]
  · norm_num

end Magcoordpy
